import Mathlib

/-!
# Agentation broker — verification of the specification against the source

Shallow embedding of the `agentation-mcp` package: the CLI port parsing
(`cli.ts`), the HTTP surface (`src/server` HTTP module), and the MCP tool
dispatcher (`src/server/mcp.ts`).  The store and event-bus modules are not
part of the provided sources (only their callers are); the definitions that
stand in for them are modelled from the specification and are marked as such
in their doc comments.
-/

namespace Agentation

/-! ## JavaScript primitives used by the source

The CLI and the URL/host filtering rely on host-language primitives
(`parseInt(x, 10)`, `String.prototype.trim`, `new URL(u).host`).  They are
embedded here with their standard semantics. -/

/-- Whitespace characters recognised by the JavaScript `trim` /
`parseInt` whitespace skip (space, tab, newline, carriage return,
vertical tab, form feed). -/
def jsWhitespace (c : Char) : Bool :=
  c == ' ' || c == '\t' || c == '\n' || c == '\r' || c == '\x0b' || c == '\x0c'

/-- Semantics of String.prototype.trim: strip leading and trailing whitespace. -/
def jsTrim (s : String) : String :=
  String.mk (((s.toList.dropWhile jsWhitespace).reverse.dropWhile jsWhitespace).reverse)

/-- Value of a list of decimal digit characters. -/
def digitsVal (ds : List Char) : Nat :=
  ds.foldl (fun n c => n * 10 + (c.toNat - '0'.toNat)) 0

/-- Semantics of parseInt(s, 10): skip leading whitespace, read an optional sign and
then the maximal prefix of decimal digits; `none` models `NaN` (no digits). -/
def jsParseInt10 (s : String) : Option Int :=
  let cs := s.toList.dropWhile jsWhitespace
  let signAndRest : Int × List Char :=
    match cs with
    | '-' :: r => (-1, r)
    | '+' :: r => (1, r)
    | _ => (1, cs)
  let ds := signAndRest.2.takeWhile Char.isDigit
  if ds.isEmpty then none else some (signAndRest.1 * (digitsVal ds : Int))

/-! ## CLI port parsing (`cli.ts`) -/

/-- Constant DEFAULT_PORT from cli.ts. -/
def DEFAULT_PORT : Int := 4747

/-- Function parsePortInput from cli.ts: trim the input, parseInt it, and fall
back to the default when the trimmed input is empty, the parse is NaN, or
the value is outside `[1, 65535]`. -/
def parsePortInput (input : String) : Int :=
  if jsTrim input == "" || jsParseInt10 (jsTrim input) == none
      || (jsParseInt10 (jsTrim input)).getD 0 < 1
      || (jsParseInt10 (jsTrim input)).getD 0 > 65535 then
    DEFAULT_PORT
  else
    (jsParseInt10 (jsTrim input)).getD 0

/-- A JavaScript value as far as `parsePortFromArgArray` can distinguish it:
a string, an array, or anything else (typeof and Array.isArray checks). -/
inductive JSVal where
  | str (s : String)
  | arr (xs : List JSVal)
  | other

/-- Scanning loop of parsePortFromArgArray: walk the array one index at
a time; at each index, if the element is the port flag string and the next
element is a string parsing to an integer in `(0, 65536)`, return it;
otherwise keep scanning from the next index. -/
def portScan : List JSVal → Option Int
  | [] => none
  | x :: rest =>
    match x, rest with
    | .str s, .str next :: _ =>
      if s == "--port" then
        match jsParseInt10 next with
        | some p => if 0 < p && p < 65536 then some p else portScan rest
        | none => portScan rest
      else portScan rest
    | _, _ => portScan rest

/-- Function parsePortFromArgArray from cli.ts: non-arrays yield the default;
arrays are scanned for a port flag followed by a valid port string. -/
def parsePortFromArgArray (args : JSVal) : Int :=
  match args with
  | .arr xs => (portScan xs).getD DEFAULT_PORT
  | _ => DEFAULT_PORT

/-- Presence, somewhere in an argument array, of the port flag string
immediately followed by a string that parses to an integer in the valid
port range. -/
def ValidPortPair (xs : List JSVal) : Prop :=
  ∃ pre post next p, xs = pre ++ .str "--port" :: .str next :: post ∧
    jsParseInt10 next = some p ∧ 1 ≤ p ∧ p ≤ 65535

/-! ## Data model

Entities from the types module and the specification data model.  The
annotation entity is named `Annot` here.  Statuses and resolver identities
are the enumerations from the specification; on the wire they travel as
strings and are parsed on mutation. -/

/-- Annotation status enumeration. -/
inductive Status where
  | pending
  | acknowledged
  | resolved
  | dismissed
  deriving DecidableEq, Repr

/-- Wire string of a status. -/
def Status.text : Status → String
  | .pending => "pending"
  | .acknowledged => "acknowledged"
  | .resolved => "resolved"
  | .dismissed => "dismissed"

/-- Parse a wire status string. -/
def parseStatus : String → Option Status
  | "pending" => some .pending
  | "acknowledged" => some .acknowledged
  | "resolved" => some .resolved
  | "dismissed" => some .dismissed
  | _ => none

/-- Resolver identity enumeration. -/
inductive Resolver where
  | human
  | agent
  deriving DecidableEq, Repr

/-- Parse a wire resolver string. -/
def parseResolver : String → Option Resolver
  | "human" => some .human
  | "agent" => some .agent
  | _ => none

/-- Reply on an annotation thread. -/
structure ThreadMessage where
  role : String
  content : String
  deriving DecidableEq, Repr

/-- Annotation record (the fields of the source Annotation type plus the
thread and resolver, which the store owns). -/
structure Annot where
  id : String
  sessionId : String
  comment : String
  element : String
  elementPath : String
  url : Option String := none
  intent : Option String := none
  severity : Option String := none
  timestamp : Option Int := none
  nearbyText : Option String := none
  reactComponents : Option String := none
  status : Status := .pending
  resolvedBy : Option Resolver := none
  thread : List ThreadMessage := []
  deriving DecidableEq, Repr

/-- Session record. -/
structure Session where
  id : String
  url : String
  status : String
  createdAt : String
  projectId : Option String := none
  deriving DecidableEq, Repr

/-- Event envelope carried on the SSE streams.  The embedded entity payload
is not modelled: no verified claim inspects it. -/
structure SAFEvent where
  type : String
  sessionId : String
  sequence : Nat
  deriving DecidableEq, Repr

/-- Broker state: the store tables plus the event log and the single
event-bus sequence counter. -/
structure Store where
  sessions : List Session := []
  annotations : List Annot := []
  eventLog : List SAFEvent := []
  seqCounter : Nat := 0
  nextId : Nat := 0
  deriving Repr

/-! ## Store operations

Modelled from the spec: the store module itself is not among the provided
sources (only its HTTP handlers and the dispatcher that call it are), so
each operation below follows the operation list in the specification store
section. -/

/-- Modelled from the spec: getAnnotation — the annotation with the given
id, or a not-found indication. -/
def getAnnot (st : Store) (id : String) : Option Annot :=
  st.annotations.find? (fun a => a.id == id)

/-- Modelled from the spec: getSession. -/
def getSession (st : Store) (id : String) : Option Session :=
  st.sessions.find? (fun s => s.id == id)

/-- Annotations of one session in insertion order. -/
def sessionAnnots (st : Store) (id : String) : List Annot :=
  st.annotations.filter (fun a => a.sessionId == id)

/-- Modelled from the spec: getSessionWithAnnotations — the session together
with its annotations in insertion order. -/
def getSessionDetail (st : Store) (id : String) : Option (Session × List Annot) :=
  (getSession st id).map (fun s => (s, sessionAnnots st s.id))

/-- Modelled from the spec: getPendingAnnotations — annotations of the
session with status pending, in insertion order. -/
def getPending (st : Store) (sid : String) : List Annot :=
  st.annotations.filter (fun a => a.sessionId == sid && a.status == Status.pending)

/-- Legal edges of the status transition lattice from the specification. -/
def legalEdge : Status → Status → Bool
  | .pending, .acknowledged => true
  | .pending, .dismissed => true
  | .acknowledged, .resolved => true
  | .acknowledged, .dismissed => true
  | .resolved, .pending => true
  | .dismissed, .pending => true
  | _, _ => false

/-- A requested status value is accepted when it equals the current status
(a no-op patch, which the specification allows) or lies on a legal edge. -/
def legalStatusChange (s t : Status) : Bool :=
  s == t || legalEdge s t

/-- Fields a JSON request body may carry, each optional; this models a
parsed JSON object restricted to the fields the handlers read. -/
structure BodyFields where
  url : Option String := none
  projectId : Option String := none
  comment : Option String := none
  element : Option String := none
  elementPath : Option String := none
  status : Option String := none
  resolvedBy : Option String := none
  role : Option String := none
  content : Option String := none
  intent : Option String := none
  severity : Option String := none
  timestamp : Option Int := none
  nearbyText : Option String := none
  reactComponents : Option String := none
  deriving DecidableEq, Repr

/-- Request body: either unparseable JSON or a parsed object. -/
inductive ReqBody where
  | invalid
  | obj (fields : BodyFields)
  deriving DecidableEq, Repr

/-- Status field application of updateAnnotation: an absent field preserves
the status, a present one is parsed and checked against the transition
lattice; bad enum values and illegal transitions are validation errors. -/
def statusStep (a : Annot) (p : BodyFields) : Except String Annot :=
  match p.status with
  | none => .ok a
  | some raw =>
    match parseStatus raw with
    | none => .error ("Invalid status: " ++ raw)
    | some t =>
      if legalStatusChange a.status t then .ok { a with status := t }
      else .error ("Invalid status transition: " ++ a.status.text ++ " to " ++ t.text)

/-- Resolver field application of updateAnnotation. -/
def resolverStep (a : Annot) (p : BodyFields) : Except String Annot :=
  match p.resolvedBy with
  | none => .ok a
  | some raw =>
    match parseResolver raw with
    | none => .error ("Invalid resolvedBy: " ++ raw)
    | some r => .ok { a with resolvedBy := some r }

/-- Comment field application of updateAnnotation. -/
def commentStep (a : Annot) (p : BodyFields) : Annot :=
  match p.comment with
  | none => a
  | some c => { a with comment := c }

/-- Modelled from the spec: field application of updateAnnotation — fields
present overwrite, fields absent are preserved; a status change is checked
against the transition lattice and enum values are validated, failing with
a validation error. -/
def applyPatch (a : Annot) (p : BodyFields) : Except String Annot :=
  match statusStep a p with
  | .error m => .error m
  | .ok a1 =>
    match resolverStep a1 p with
    | .error m => .error m
    | .ok a2 => .ok (commentStep a2 p)

/-- Replace the first annotation with the given id. -/
def updateById (id : String) (f : Annot → Annot) : List Annot → List Annot
  | [] => []
  | a :: rest => if a.id == id then f a :: rest else a :: updateById id f rest

/-- Result of an update: missing entity, validation failure, or the updated
annotation together with the new store. -/
inductive UpdResult where
  | notFound
  | invalid (msg : String)
  | ok (a : Annot) (st : Store)

/-- Modelled from the spec: updateAnnotation — patch the annotation if it
exists, enforcing the transition lattice. -/
def updateAnnot (id : String) (p : BodyFields) (st : Store) : UpdResult :=
  match getAnnot st id with
  | none => .notFound
  | some a =>
    match applyPatch a p with
    | .error m => .invalid m
    | .ok a2 => .ok a2 { st with annotations := updateById id (fun _ => a2) st.annotations }

/-- Modelled from the spec: deleteAnnotation — remove the annotation and its
thread (the thread is embedded, so it cascades), returning the pre-delete
snapshot. -/
def deleteAnnot (id : String) (st : Store) : Option (Annot × Store) :=
  (getAnnot st id).map (fun a =>
    (a, { st with annotations := st.annotations.filter (fun x => !(x.id == id)) }))

/-- Modelled from the spec: addThreadMessage — append to the annotation
thread and return the whole annotation. -/
def addThreadMessage (id : String) (role content : String) (st : Store) :
    Option (Annot × Store) :=
  (getAnnot st id).map (fun a =>
    let a2 := { a with thread := a.thread ++ [⟨role, content⟩] }
    (a2, { st with annotations := updateById id (fun _ => a2) st.annotations }))

/-- Modelled from the spec: fresh opaque id generation on create. -/
def freshId (st : Store) : String :=
  "id-" ++ toString st.nextId

/-- Modelled from the spec: createSession — fresh id, status active. -/
def createSession (url : String) (projectId : Option String) (st : Store) :
    Session × Store :=
  let s : Session :=
    { id := freshId st, url := url, status := "active", createdAt := ""
      projectId := projectId }
  (s, { st with sessions := st.sessions ++ [s], nextId := st.nextId + 1 })

/-- Modelled from the spec: addAnnotation — rejects if the session does not
exist; fresh id, status pending, optional fields stored verbatim. -/
def addAnnot (sid : String) (p : BodyFields) (st : Store) : Option (Annot × Store) :=
  (getSession st sid).map (fun _ =>
    let a : Annot :=
      { id := freshId st, sessionId := sid,
        comment := p.comment.getD "", element := p.element.getD "",
        elementPath := p.elementPath.getD "",
        url := p.url, intent := p.intent, severity := p.severity,
        timestamp := p.timestamp, nearbyText := p.nearbyText,
        reactComponents := p.reactComponents }
    (a, { st with annotations := st.annotations ++ [a], nextId := st.nextId + 1 }))

/-- Modelled from the spec: the event bus — a single internal counter issues
sequence numbers, the first event is 1; the event is appended to the log. -/
def publish (ty sid : String) (st : Store) : SAFEvent × Store :=
  let sq := st.seqCounter + 1
  let e : SAFEvent := { type := ty, sessionId := sid, sequence := sq }
  (e, { st with seqCounter := sq, eventLog := st.eventLog ++ [e] })

/-- Modelled from the spec: getEventsSince — events of the session whose
sequence is strictly greater than the given value, in log order. -/
def getEventsSince (sid : String) (lastSeq : Int) (log : List SAFEvent) :
    List SAFEvent :=
  log.filter (fun e => e.sessionId == sid && lastSeq < (e.sequence : Int))

/-! ## HTTP surface

Route handlers from the HTTP module of the source.  A response is a status
code and a body; each body constructor stands for one JSON wire shape. -/

/-- Response body wire shapes. -/
inductive ResBody where
  | errorMsg (msg : String)
  | health
  | sessionsList (ss : List Session)
  | sessionDetail (s : Session) (annots : List Annot)
  | sessionRes (s : Session)
  | annotRes (a : Annot)
  | deletedRes (annotationId : String)
  | pendingRes (count : Nat) (annots : List Annot)
  | streamRes (frames : List SAFEvent)
  | noContent
  deriving DecidableEq, Repr

/-- JavaScript truthiness of an optional string field (absent and empty are
both falsy, as in the required-field checks of the handlers). -/
def truthy (o : Option String) : Bool :=
  match o with
  | some s => !(s == "")
  | none => false

/-- Handler for POST /sessions. -/
def createSessionHandler (body : ReqBody) (st : Store) : (Nat × ResBody) × Store :=
  match body with
  | .invalid => ((400, .errorMsg "Invalid JSON"), st)
  | .obj f =>
    if !truthy f.url then ((400, .errorMsg "url is required"), st)
    else
      let r := createSession (f.url.getD "") f.projectId st
      ((201, .sessionRes r.1), r.2)

/-- Handler for GET /sessions. -/
def listSessionsHandler (st : Store) : (Nat × ResBody) × Store :=
  ((200, .sessionsList st.sessions), st)

/-- Handler for GET /sessions/:id. -/
def getSessionHandler (id : String) (st : Store) : (Nat × ResBody) × Store :=
  match getSessionDetail st id with
  | none => ((404, .errorMsg "Session not found"), st)
  | some d => ((200, .sessionDetail d.1 d.2), st)

/-- Handler for POST /sessions/:id/annotations. -/
def addAnnotHandler (sid : String) (body : ReqBody) (st : Store) :
    (Nat × ResBody) × Store :=
  match body with
  | .invalid => ((400, .errorMsg "Invalid JSON"), st)
  | .obj f =>
    if !truthy f.comment || !truthy f.element || !truthy f.elementPath then
      ((400, .errorMsg "comment, element, and elementPath are required"), st)
    else
      match addAnnot sid f st with
      | none => ((404, .errorMsg "Session not found"), st)
      | some r => ((201, .annotRes r.1), r.2)

/-- Handler for PATCH /annotations/:id: parse the body, check existence
(404), then update; a validation failure from the store becomes a 400. -/
def updateAnnotHandler (id : String) (body : ReqBody) (st : Store) :
    (Nat × ResBody) × Store :=
  match body with
  | .invalid => ((400, .errorMsg "Invalid JSON"), st)
  | .obj f =>
    match getAnnot st id with
    | none => ((404, .errorMsg "Annotation not found"), st)
    | some _ =>
      match updateAnnot id f st with
      | .notFound => ((404, .errorMsg "Annotation not found"), st)
      | .invalid m => ((400, .errorMsg m), st)
      | .ok a st2 => ((200, .annotRes a), st2)

/-- Handler for GET /annotations/:id. -/
def getAnnotHandler (id : String) (st : Store) : (Nat × ResBody) × Store :=
  match getAnnot st id with
  | none => ((404, .errorMsg "Annotation not found"), st)
  | some a => ((200, .annotRes a), st)

/-- Handler for DELETE /annotations/:id: the pre-delete snapshot returned by
the store gates the response; the body is the deletion acknowledgement. -/
def deleteAnnotHandler (id : String) (st : Store) : (Nat × ResBody) × Store :=
  match deleteAnnot id st with
  | none => ((404, .errorMsg "Annotation not found"), st)
  | some r => ((200, .deletedRes id), r.2)

/-- Handler for GET /sessions/:id/pending. -/
def getPendingHandler (sid : String) (st : Store) : (Nat × ResBody) × Store :=
  let pend := getPending st sid
  ((200, .pendingRes pend.length pend), st)

/-- Handler for GET /pending: pending annotations of every session. -/
def getAllPendingHandler (st : Store) : (Nat × ResBody) × Store :=
  let pend := st.sessions.flatMap (fun s => getPending st s.id)
  ((200, .pendingRes pend.length pend), st)

/-- Handler for POST /annotations/:id/thread. -/
def addThreadHandler (id : String) (body : ReqBody) (st : Store) :
    (Nat × ResBody) × Store :=
  match body with
  | .invalid => ((400, .errorMsg "Invalid JSON"), st)
  | .obj f =>
    if !truthy f.role || !truthy f.content then
      ((400, .errorMsg "role and content are required"), st)
    else
      match addThreadMessage id (f.role.getD "") (f.content.getD "") st with
      | none => ((404, .errorMsg "Annotation not found"), st)
      | some r => ((201, .annotRes r.1), r.2)

/-! ## SSE endpoints -/

/-- Replay phase of the per-session SSE handler: when a Last-Event-ID header
is present and parses as an integer, the logged events of the session with a
strictly greater sequence are replayed in log order; otherwise nothing is
replayed. -/
def sseReplay (log : List SAFEvent) (sid : String) (lastEventId : Option String) :
    List SAFEvent :=
  match lastEventId with
  | none => []
  | some h =>
    match jsParseInt10 h with
    | none => []
    | some n => getEventsSince sid n log

/-- Handler for GET /sessions/:id/events: 404 when the session is missing,
otherwise a stream whose initial frames are the replay. -/
def sseHandler (sid : String) (lastEventId : Option String) (st : Store) :
    (Nat × ResBody) × Store :=
  match getSessionDetail st sid with
  | none => ((404, .errorMsg "Session not found"), st)
  | some _ => ((200, .streamRes (sseReplay st.eventLog sid lastEventId)), st)

/-- Full frame stream observed on one per-session SSE connection: the replay
followed by the live events whose session id matches (the per-session
subscription shape of the event bus, modelled from the spec). -/
def sseDelivered (st : Store) (sid : String) (lastEventId : Option String)
    (live : List SAFEvent) : List SAFEvent :=
  sseReplay st.eventLog sid lastEventId ++ live.filter (fun e => e.sessionId == sid)

/-- Split a character list at the first scheme separator, returning the
characters before it and the characters after it. -/
def schemeSplit : List Char → Option (List Char × List Char)
  | [] => none
  | ':' :: '/' :: '/' :: rest => some ([], rest)
  | c :: rest => (schemeSplit rest).map (fun p => (c :: p.1, p.2))

/-- Model of the platform URL parser as used by the host read on the session
origin URL: the authority component between the scheme separator and the
first slash, question mark, or hash; parsing fails (the constructor throws)
when the separator is absent or the scheme or host is empty. -/
def urlHost (u : String) : Option String :=
  match schemeSplit u.toList with
  | none => none
  | some (scheme, rest) =>
    if scheme.isEmpty then none
    else
      let host := rest.takeWhile (fun c => !(c == '/' || c == '?' || c == '#'))
      if host.isEmpty then none else some (String.mk host)

/-- Subscription callback of the domain stream: an event produces a frame
exactly when its owning session exists and the host of the session URL
equals the requested domain; sessions whose URL fails to parse are silently
skipped.  The store argument is the state consulted at delivery time. -/
def domainMatch (st : Store) (domain : String) (e : SAFEvent) : Bool :=
  match getSession st e.sessionId with
  | some s =>
    match urlHost s.url with
    | some h => h == domain
    | none => false
  | none => false

/-- Frames produced on one domain stream connection for the given live
events. -/
def domainFrames (st : Store) (domain : String) (events : List SAFEvent) :
    List SAFEvent :=
  events.filter (domainMatch st domain)

/-- Handler for GET /events: a missing or empty domain query parameter (both
falsy) yields 400; otherwise the stream opens (frames arrive live). -/
def globalSseHandler (domainParam : Option String) (st : Store) :
    (Nat × ResBody) × Store :=
  match domainParam with
  | none => ((400, .errorMsg "domain query parameter required"), st)
  | some d =>
    if d == "" then ((400, .errorMsg "domain query parameter required"), st)
    else ((200, .streamRes []), st)

/-- Outcome of one domain-stream connection: either the 400 rejection or the
frames produced for the given live events. -/
def globalDelivered (st : Store) (domainParam : Option String)
    (live : List SAFEvent) : Except (Nat × String) (List SAFEvent) :=
  match domainParam with
  | none => Except.error (400, "domain query parameter required")
  | some d =>
    if d == "" then Except.error (400, "domain query parameter required")
    else Except.ok (domainFrames st d live)

/-! ## Router and top-level dispatch -/

/-- Routes of the route table, with captured path parameters. -/
inductive RouteMatch where
  | globalSseR
  | allPendingR
  | listSessionsR
  | createSessionR
  | getSessionR (id : String)
  | sessionEventsR (id : String)
  | sessionPendingR (id : String)
  | addAnnotR (id : String)
  | updateAnnotR (id : String)
  | getAnnotR (id : String)
  | deleteAnnotR (id : String)
  | addThreadR (id : String)
  deriving DecidableEq, Repr

/-- Route matching over the method and the path segments; a captured
segment must be non-empty, as in the route patterns of the source. -/
def matchRoute (method : String) (path : List String) : Option RouteMatch :=
  match method, path with
  | "GET", ["events"] => some .globalSseR
  | "GET", ["pending"] => some .allPendingR
  | "GET", ["sessions"] => some .listSessionsR
  | "POST", ["sessions"] => some .createSessionR
  | "GET", ["sessions", id] => if id == "" then none else some (.getSessionR id)
  | "GET", ["sessions", id, "events"] => if id == "" then none else some (.sessionEventsR id)
  | "GET", ["sessions", id, "pending"] => if id == "" then none else some (.sessionPendingR id)
  | "POST", ["sessions", id, "annotations"] => if id == "" then none else some (.addAnnotR id)
  | "PATCH", ["annotations", id] => if id == "" then none else some (.updateAnnotR id)
  | "GET", ["annotations", id] => if id == "" then none else some (.getAnnotR id)
  | "DELETE", ["annotations", id] => if id == "" then none else some (.deleteAnnotR id)
  | "POST", ["annotations", id, "thread"] => if id == "" then none else some (.addThreadR id)
  | _, _ => none

/-- An HTTP request: method, path segments, the query and header values the
handlers read, the credential slots an authenticating server would read,
and the body. -/
structure Request where
  method : String
  path : List String
  queryDomain : Option String := none
  lastEventId : Option String := none
  authHeader : Option String := none
  queryKey : Option String := none
  body : ReqBody := .obj {}

/-- Startup configuration relevant to the HTTP server: the shared
credential passed by the CLI (api key flag or environment variable). -/
structure Config where
  apiKey : Option String := none

/-- Top-level request dispatch of the HTTP server: CORS preflight, the
health check, then the route table.  The configured api key and the
presented credential are not consulted anywhere: the source performs no
authentication.  The catch-all 500 for handler exceptions is not modelled
because the embedded handlers are total. -/
def serve (_cfg : Config) (req : Request) (st : Store) : (Nat × ResBody) × Store :=
  if req.method == "OPTIONS" then ((204, .noContent), st)
  else if req.path == ["health"] && req.method == "GET" then ((200, .health), st)
  else
    match matchRoute req.method req.path with
    | none => ((404, .errorMsg "Not found"), st)
    | some r =>
      match r with
      | .globalSseR => globalSseHandler req.queryDomain st
      | .allPendingR => getAllPendingHandler st
      | .listSessionsR => listSessionsHandler st
      | .createSessionR => createSessionHandler req.body st
      | .getSessionR id => getSessionHandler id st
      | .sessionEventsR id => sseHandler id req.lastEventId st
      | .sessionPendingR id => getPendingHandler id st
      | .addAnnotR id => addAnnotHandler id req.body st
      | .updateAnnotR id => updateAnnotHandler id req.body st
      | .getAnnotR id => getAnnotHandler id st
      | .deleteAnnotR id => deleteAnnotHandler id st
      | .addThreadR id => addThreadHandler id req.body st

/-! ## MCP tool dispatcher

Tool catalog and dispatcher from the MCP module of the source.  HTTP calls
issued by the dispatcher run against the co-hosted HTTP surface, so they are
interpreted directly by the handlers above on the same store. -/

/-- Catalog entry: the tool name and the required input fields of its
schema (descriptions are omitted). -/
structure ToolDef where
  name : String
  required : List String
  deriving DecidableEq, Repr

/-- Tool catalog returned by the list request. -/
def TOOLS : List ToolDef :=
  [ { name := "agentation_list_sessions", required := [] },
    { name := "agentation_get_session", required := ["sessionId"] },
    { name := "agentation_get_pending", required := ["sessionId"] },
    { name := "agentation_get_all_pending", required := [] },
    { name := "agentation_acknowledge", required := ["annotationId"] },
    { name := "agentation_resolve", required := ["annotationId"] },
    { name := "agentation_dismiss", required := ["annotationId", "reason"] },
    { name := "agentation_reply", required := ["annotationId", "message"] } ]

/-- Argument object of a tool call (every field optional on the wire; the
schemas require some of them before dispatch). -/
structure ToolArgs where
  sessionId : Option String := none
  annotationId : Option String := none
  summary : Option String := none
  reason : Option String := none
  message : Option String := none
  deriving DecidableEq, Repr

/-- Session summary shape produced by the list-sessions tool. -/
structure SessionSummary where
  id : String
  url : String
  status : String
  createdAt : String
  deriving DecidableEq, Repr

/-- Projection used by the list-sessions tool. -/
def toSummary (s : Session) : SessionSummary :=
  { id := s.id, url := s.url, status := s.status, createdAt := s.createdAt }

/-- Pending item shape produced by the pending tools (status and session id
are projected away). -/
structure PendingItem where
  id : String
  comment : String
  element : String
  elementPath : String
  url : Option String
  intent : Option String
  severity : Option String
  timestamp : Option Int
  nearbyText : Option String
  reactComponents : Option String
  deriving DecidableEq, Repr

/-- Projection used by the pending tools. -/
def toPendingItem (a : Annot) : PendingItem :=
  { id := a.id, comment := a.comment, element := a.element,
    elementPath := a.elementPath, url := a.url, intent := a.intent,
    severity := a.severity, timestamp := a.timestamp,
    nearbyText := a.nearbyText, reactComponents := a.reactComponents }

/-- Text payload of a tool result; each constructor is one JSON shape the
dispatcher stringifies, and `msg` is a plain message. -/
inductive ToolText where
  | msg (s : String)
  | sessionsPayload (ss : List SessionSummary)
  | sessionPayload (s : Session) (annots : List Annot)
  | pendingPayload (count : Nat) (items : List PendingItem)
  | ackPayload (annotationId : String)
  | resolvePayload (annotationId : String) (summary : Option String)
  | dismissPayload (annotationId : String) (reason : String)
  | replyPayload (annotationId : String) (message : String)
  deriving DecidableEq, Repr

/-- Result of a tool call. -/
structure ToolResult where
  text : ToolText
  isError : Bool
  deriving DecidableEq, Repr

/-- Successful tool result. -/
def success (t : ToolText) : ToolResult :=
  { text := t, isError := false }

/-- Error tool result. -/
def errorResult (m : String) : ToolResult :=
  { text := .msg m, isError := true }

/-- Message text of the error thrown by the HTTP helpers on a non-ok
response.  Only error bodies are ever rendered (the helpers throw only on
4xx/5xx responses, whose bodies are always the error shape). -/
def httpErrText (status : Nat) (b : ResBody) : String :=
  "HTTP " ++ toString status ++ ": " ++
    (match b with
     | .errorMsg m => "\x7b\x22error\x22:\x22" ++ m ++ "\x22\x7d"
     | _ => "")

/-- A PATCH of an annotation issued by the dispatcher against the co-hosted
HTTP surface; a non-ok response becomes a thrown error carrying the status
(the source inspects the message for the substring 404, which among the
responses of this server appears exactly in the 404 status line). -/
def httpPatchAnnot (aid : String) (p : BodyFields) (st : Store) :
    Except (Nat × String) Store :=
  let r := updateAnnotHandler aid (.obj p) st
  if r.1.1 < 400 then Except.ok r.2
  else Except.error (r.1.1, httpErrText r.1.1 r.1.2)

/-- A POST to an annotation thread issued by the dispatcher against the
co-hosted HTTP surface. -/
def httpPostThread (aid role content : String) (st : Store) :
    Except (Nat × String) Store :=
  let r := addThreadHandler aid (.obj { role := some role, content := some content }) st
  if r.1.1 < 400 then Except.ok r.2
  else Except.error (r.1.1, httpErrText r.1.1 r.1.2)

/-- Catch clause shared by the annotation tools: a 404 becomes the
annotation-not-found message, anything else is rethrown and surfaces as an
error result with the thrown message. -/
def toolCatch (aid : String) (e : Nat × String) : ToolResult :=
  if e.1 == 404 then errorResult ("Annotation not found: " ++ aid)
  else errorResult e.2

/-- Schema enforcement for one required field: a missing field makes the
schema parse throw, which the request handler turns into an error result
(the validation message is abbreviated here). -/
def requireArg (field : String) (v : Option String)
    (k : String → Store → ToolResult × Store) (st : Store) : ToolResult × Store :=
  match v with
  | none => (errorResult ("Required argument missing: " ++ field), st)
  | some x => k x st

/-- Tool dispatch of the MCP module, composed with the enclosing catch of
the call-tool request handler (thrown errors become error results).  Read
tools consult the store through the HTTP read endpoints; mutation tools go
through the PATCH and thread-POST endpoints. -/
def handleTool (name : String) (args : ToolArgs) (st : Store) : ToolResult × Store :=
  if name == "agentation_list_sessions" then
    (success (.sessionsPayload (st.sessions.map toSummary)), st)
  else if name == "agentation_get_session" then
    requireArg "sessionId" args.sessionId (fun sid st =>
      match getSessionDetail st sid with
      | none => (errorResult ("Session not found: " ++ sid), st)
      | some d => (success (.sessionPayload d.1 d.2), st)) st
  else if name == "agentation_get_pending" then
    requireArg "sessionId" args.sessionId (fun sid st =>
      let pend := getPending st sid
      (success (.pendingPayload pend.length (pend.map toPendingItem)), st)) st
  else if name == "agentation_get_all_pending" then
    let pend := st.sessions.flatMap (fun s => getPending st s.id)
    (success (.pendingPayload pend.length (pend.map toPendingItem)), st)
  else if name == "agentation_acknowledge" then
    requireArg "annotationId" args.annotationId (fun aid st =>
      match httpPatchAnnot aid { status := some "acknowledged" } st with
      | .error e => (toolCatch aid e, st)
      | .ok st2 => (success (.ackPayload aid), st2)) st
  else if name == "agentation_resolve" then
    requireArg "annotationId" args.annotationId (fun aid st =>
      match httpPatchAnnot aid { status := some "resolved", resolvedBy := some "agent" } st with
      | .error e => (toolCatch aid e, st)
      | .ok st2 =>
        match args.summary with
        | some s =>
          if s == "" then (success (.resolvePayload aid args.summary), st2)
          else
            match httpPostThread aid "agent" ("Resolved: " ++ s) st2 with
            | .error e => (toolCatch aid e, st2)
            | .ok st3 => (success (.resolvePayload aid args.summary), st3)
        | none => (success (.resolvePayload aid args.summary), st2)) st
  else if name == "agentation_dismiss" then
    requireArg "annotationId" args.annotationId (fun aid st =>
      requireArg "reason" args.reason (fun reason st =>
        match httpPatchAnnot aid { status := some "dismissed", resolvedBy := some "agent" } st with
        | .error e => (toolCatch aid e, st)
        | .ok st2 =>
          match httpPostThread aid "agent" ("Dismissed: " ++ reason) st2 with
          | .error e => (toolCatch aid e, st2)
          | .ok st3 => (success (.dismissPayload aid reason), st3)) st) st
  else if name == "agentation_reply" then
    requireArg "annotationId" args.annotationId (fun aid st =>
      requireArg "message" args.message (fun msg st =>
        match httpPostThread aid "agent" msg st with
        | .error e => (toolCatch aid e, st)
        | .ok st2 => (success (.replyPayload aid msg), st2)) st) st
  else
    (errorResult ("Unknown tool: " ++ name), st)

/-- Sample annotation for concrete witnesses. -/
def aW : Annot :=
  { id := "A1", sessionId := "S1", comment := "fix me", element := "button",
    elementPath := "body>button" }

/-- Sample session for concrete witnesses. -/
def sW : Session :=
  { id := "S1", url := "http://localhost:3000/x", status := "active", createdAt := "" }

/-- Sample store for concrete witnesses. -/
def stW : Store :=
  { sessions := [sW], annotations := [aW] }

/-- Folding a sequence of mutations through the event bus: each mutation
publishes exactly one event through the single counter. -/
def runPublishes (ds : List (String × String)) (st : Store) : Store :=
  ds.foldl (fun s d => (publish d.1 d.2 s).2) st

/-! ## Theorems -/

/-! ### CLI port parsing lemmas -/

theorem portScan_range (xs : List JSVal) (p : Int) (h : portScan xs = some p) :
    1 ≤ p ∧ p ≤ 65535 := by
  induction xs with
  | nil => simp [portScan] at h
  | cons x rest ih =>
    cases x with
    | arr ys => exact ih (by simpa [portScan] using h)
    | other => exact ih (by simpa [portScan] using h)
    | str s =>
      cases rest with
      | nil => simp [portScan] at h
      | cons y rest2 =>
        cases y with
        | arr ys => exact ih (by simpa [portScan] using h)
        | other => exact ih (by simpa [portScan] using h)
        | str next =>
          simp only [portScan] at h
          split at h
          · split at h
            · split at h
              · rename_i hcond
                simp only [Bool.and_eq_true, decide_eq_true_eq] at hcond
                cases h
                omega
              · exact ih h
            · exact ih h
          · exact ih h

theorem portScan_some_pair (xs : List JSVal) (p : Int) (h : portScan xs = some p) :
    ∃ pre post next, xs = pre ++ .str "--port" :: .str next :: post ∧
      jsParseInt10 next = some p := by
  induction xs with
  | nil => simp [portScan] at h
  | cons x rest ih =>
    cases x with
    | arr ys =>
      obtain ⟨pre, post, next, hx, hp⟩ := ih (by simpa [portScan] using h)
      exact ⟨.arr ys :: pre, post, next, by simp [hx], hp⟩
    | other =>
      obtain ⟨pre, post, next, hx, hp⟩ := ih (by simpa [portScan] using h)
      exact ⟨.other :: pre, post, next, by simp [hx], hp⟩
    | str s =>
      cases rest with
      | nil => simp [portScan] at h
      | cons y rest2 =>
        cases y with
        | arr ys =>
          obtain ⟨pre, post, next, hx, hp⟩ := ih (by simpa [portScan] using h)
          exact ⟨.str s :: pre, post, next, by simp [hx], hp⟩
        | other =>
          obtain ⟨pre, post, next, hx, hp⟩ := ih (by simpa [portScan] using h)
          exact ⟨.str s :: pre, post, next, by simp [hx], hp⟩
        | str next =>
          simp only [portScan] at h
          split at h
          · rename_i hflag
            split at h
            · split at h
              · cases h
                rename_i q hq _
                refine ⟨[], rest2, next, ?_, hq⟩
                simp_all
              · obtain ⟨pre, post, nx, hx, hp⟩ := ih h
                exact ⟨.str s :: pre, post, nx, by simp [hx], hp⟩
            · obtain ⟨pre, post, nx, hx, hp⟩ := ih h
              exact ⟨.str s :: pre, post, nx, by simp [hx], hp⟩
          · obtain ⟨pre, post, nx, hx, hp⟩ := ih h
            exact ⟨.str s :: pre, post, nx, by simp [hx], hp⟩

theorem portScan_cons_isSome (x : JSVal) (rest : List JSVal) (q : Int)
    (h : portScan rest = some q) : ∃ r, portScan (x :: rest) = some r := by
  cases x with
  | arr ys => exact ⟨q, by simpa [portScan] using h⟩
  | other => exact ⟨q, by simpa [portScan] using h⟩
  | str s =>
    cases rest with
    | nil => simp [portScan] at h
    | cons y rest2 =>
      cases y with
      | arr ys => exact ⟨q, by simpa [portScan] using h⟩
      | other => exact ⟨q, by simpa [portScan] using h⟩
      | str next =>
        simp only [portScan]
        split
        · split
          · split
            · exact ⟨_, rfl⟩
            · exact ⟨q, h⟩
          · exact ⟨q, h⟩
        · exact ⟨q, h⟩

theorem portScan_isSome_of_pair (xs : List JSVal) (h : ValidPortPair xs) :
    ∃ q, portScan xs = some q := by
  obtain ⟨pre, post, next, p, hx, hp, hlo, hhi⟩ := h
  subst hx
  induction pre with
  | nil =>
    refine ⟨p, ?_⟩
    simp only [List.nil_append, portScan, hp]
    have : (decide (0 < p) && decide (p < 65536)) = true := by
      simp only [Bool.and_eq_true, decide_eq_true_eq]
      omega
    simp [this]
  | cons z pre ih =>
    obtain ⟨q, hq⟩ := ih
    exact portScan_cons_isSome z _ q hq

/-- C10: CLI port parsing is total and always lands in the valid range.
For parsePortInput: the result is always in the interval from 1 to 65535;
the default 4747 is returned when the trimmed input parses to NaN or to an
out-of-range value (the empty trimmed input parses to NaN); an in-range
parse is returned as is.  For parsePortFromArgArray: non-arrays yield 4747;
an array yields 4747 unless it contains the port flag immediately followed
by a string parsing into the valid range, in which case the value of such a
pair is returned. -/
theorem c10_port_parsing_total :
    (∀ s : String, 1 ≤ parsePortInput s ∧ parsePortInput s ≤ 65535)
    ∧ (∀ s : String, jsParseInt10 (jsTrim s) = none → parsePortInput s = 4747)
    ∧ (∀ s : String, ∀ p : Int, jsParseInt10 (jsTrim s) = some p →
        (p < 1 ∨ 65535 < p) → parsePortInput s = 4747)
    ∧ (∀ s : String, ∀ p : Int, jsParseInt10 (jsTrim s) = some p →
        1 ≤ p → p ≤ 65535 → parsePortInput s = p)
    ∧ (∀ v : JSVal, 1 ≤ parsePortFromArgArray v ∧ parsePortFromArgArray v ≤ 65535)
    ∧ (∀ s : String, parsePortFromArgArray (.str s) = 4747)
    ∧ (parsePortFromArgArray .other = 4747)
    ∧ (∀ xs : List JSVal, ¬ ValidPortPair xs → parsePortFromArgArray (.arr xs) = 4747)
    ∧ (∀ xs : List JSVal, ValidPortPair xs →
        ∃ pre post next p, xs = pre ++ .str "--port" :: .str next :: post ∧
          jsParseInt10 next = some p ∧ 1 ≤ p ∧ p ≤ 65535 ∧
          parsePortFromArgArray (.arr xs) = p) := by
  have hempty : ∀ s : String, jsTrim s = "" → jsParseInt10 (jsTrim s) = none := by
    intro s h
    rw [h]
    decide
  have harr : ∀ xs : List JSVal,
      parsePortFromArgArray (.arr xs) = (portScan xs).getD DEFAULT_PORT := fun _ => rfl
  refine ⟨?_, ?_, ?_, ?_, ?_, ?_, ?_, ?_, ?_⟩
  · intro s
    unfold parsePortInput DEFAULT_PORT
    split
    · omega
    · rename_i hc
      simp only [Bool.or_eq_true, beq_iff_eq, decide_eq_true_eq, not_or] at hc
      obtain ⟨⟨⟨h1, h2⟩, h3⟩, h4⟩ := hc
      omega
  · intro s h
    unfold parsePortInput DEFAULT_PORT
    simp [h]
  · intro s p h hout
    unfold parsePortInput DEFAULT_PORT
    split
    · rfl
    · rename_i hc
      simp only [Bool.or_eq_true, beq_iff_eq, decide_eq_true_eq, not_or] at hc
      obtain ⟨⟨⟨h1, h2⟩, h3⟩, h4⟩ := hc
      rw [h] at h3 h4
      simp only [Option.getD_some] at h3 h4
      omega
  · intro s p h hlo hhi
    unfold parsePortInput DEFAULT_PORT
    split
    · rename_i hc
      simp only [Bool.or_eq_true, beq_iff_eq, decide_eq_true_eq] at hc
      rcases hc with ((hc | hc) | hc) | hc
      · rw [hempty s hc] at h
        exact Option.noConfusion h
      · rw [hc] at h
        exact Option.noConfusion h
      · rw [h] at hc
        simp only [Option.getD_some] at hc
        omega
      · rw [h] at hc
        simp only [Option.getD_some] at hc
        omega
    · rw [h]
      rfl
  · intro v
    cases v with
    | str s => exact ⟨by norm_num [parsePortFromArgArray, DEFAULT_PORT], by norm_num [parsePortFromArgArray, DEFAULT_PORT]⟩
    | other => exact ⟨by norm_num [parsePortFromArgArray, DEFAULT_PORT], by norm_num [parsePortFromArgArray, DEFAULT_PORT]⟩
    | arr xs =>
      cases hscan : portScan xs with
      | none =>
        rw [harr xs, hscan]
        exact ⟨by norm_num [DEFAULT_PORT], by norm_num [DEFAULT_PORT]⟩
      | some p =>
        have := portScan_range xs p hscan
        rw [harr xs, hscan]
        simpa using this
  · intro s; rfl
  · rfl
  · intro xs hno
    cases hscan : portScan xs with
    | none =>
      rw [harr xs, hscan]
      rfl
    | some p =>
      exfalso
      obtain ⟨pre, post, next, hx, hp⟩ := portScan_some_pair xs p hscan
      have := portScan_range xs p hscan
      exact hno ⟨pre, post, next, p, hx, hp, this.1, this.2⟩
  · intro xs hpair
    obtain ⟨q, hq⟩ := portScan_isSome_of_pair xs hpair
    obtain ⟨pre, post, next, hx, hp⟩ := portScan_some_pair xs q hq
    have hr := portScan_range xs q hq
    refine ⟨pre, post, next, q, hx, hp, hr.1, hr.2, ?_⟩
    rw [harr xs, hq]
    rfl

/-- Witness for C10 at concrete inputs: the interesting conjuncts applied to
the literal strings and arrays. -/
theorem c10_port_parsing_total_witness :
    parsePortInput " 8080 " = 8080 ∧ parsePortInput "junk" = 4747 ∧
    parsePortInput "70000" = 4747 ∧
    parsePortFromArgArray (.arr [.str "--port", .str "9090"]) ∈ Set.Icc 1 65535 := by
  refine ⟨?_, ?_, ?_, ?_⟩
  · exact c10_port_parsing_total.2.2.2.1 " 8080 " 8080 (by decide) (by decide) (by decide)
  · exact c10_port_parsing_total.2.1 "junk" (by decide)
  · exact c10_port_parsing_total.2.2.1 "70000" 70000 (by decide) (by decide)
  · have := (c10_port_parsing_total.2.2.2.2.1 (.arr [.str "--port", .str "9090"]))
    exact Set.mem_Icc.mpr this

/-! ### Tool surface: missing watch tool (C1) and error results (C9) -/

/-- C1: the tool catalog exposes no watch tool — neither the documented
prefixed name nor the plain spec name occurs — and a call to the documented
watch tool name is answered with an unknown-tool error result, leaving the
store untouched, instead of blocking for a batch of new annotations. -/
theorem c1_no_watch_tool :
    ("agentation_watch_annotations" ∉ TOOLS.map ToolDef.name)
    ∧ ("watch_annotations" ∉ TOOLS.map ToolDef.name)
    ∧ (∀ args : ToolArgs, ∀ st : Store,
        handleTool "agentation_watch_annotations" args st
          = (errorResult "Unknown tool: agentation_watch_annotations", st)) := by
  refine ⟨by decide, by decide, ?_⟩
  intro args st
  rfl

/-! ### HTTP authentication (C2) -/

/-- C2 counterexample: with a shared credential configured at startup, a
request presenting no credential is served normally — the health check
returns 200, not 401. -/
theorem c2_counterexample :
    (serve { apiKey := some "secret" }
        { method := "GET", path := ["health"], authHeader := none,
          body := .obj {} } {}).1 = (200, ResBody.health)
    ∧ (200 : Nat) ≠ 401 := by
  exact ⟨rfl, by decide⟩

/-- C2 amended: the server enforces no credential at all — the response and
resulting state are independent of the configured key and of any presented
credential, and no response ever carries status 401. -/
theorem c2_no_auth_enforcement :
    (∀ cfg cfg' : Config, ∀ req : Request, ∀ cred cred' qk qk' : Option String,
      ∀ st : Store,
        serve cfg { req with authHeader := cred, queryKey := qk } st
          = serve cfg' { req with authHeader := cred', queryKey := qk' } st)
    ∧ (∀ cfg : Config, ∀ req : Request, ∀ st : Store,
        (serve cfg req st).1.1 ≠ 401) := by
  constructor
  · intro cfg cfg' req cred cred' qk qk' st
    rfl
  · intro cfg req st
    unfold serve globalSseHandler getAllPendingHandler listSessionsHandler
      createSessionHandler getSessionHandler sseHandler getPendingHandler
      addAnnotHandler updateAnnotHandler getAnnotHandler deleteAnnotHandler
      addThreadHandler
    repeat' split
    all_goals simp

/-! ### DELETE idempotence at the transport level (C7) -/

/-- Auxiliary: a find? by id over a list purged of that id yields nothing. -/
theorem find?_filter_ne (l : List Annot) (id : String) :
    (l.filter (fun x => !(x.id == id))).find? (fun x => x.id == id) = none := by
  rw [List.find?_eq_none]
  intro x hx
  have := (List.mem_filter.mp hx).2
  simpa using this

/-- C7: for an existing annotation, DELETE returns 200 with the deletion
acknowledgement wire shape while the store operation yields the pre-delete
snapshot; the annotation is gone afterwards, so every subsequent DELETE of
the same id returns 404. -/
theorem c7_delete_idempotent (st : Store) (id : String) (a : Annot)
    (h : getAnnot st id = some a) :
    ∃ st2 : Store,
      deleteAnnot id st = some (a, st2)
      ∧ deleteAnnotHandler id st = ((200, .deletedRes id), st2)
      ∧ getAnnot st2 id = none
      ∧ deleteAnnotHandler id st2 = ((404, .errorMsg "Annotation not found"), st2) := by
  refine ⟨{ st with annotations := st.annotations.filter (fun x => !(x.id == id)) },
    ?_, ?_, ?_, ?_⟩
  · unfold deleteAnnot
    rw [h]
    rfl
  · unfold deleteAnnotHandler deleteAnnot
    rw [h]
    rfl
  · unfold getAnnot
    exact find?_filter_ne st.annotations id
  · unfold deleteAnnotHandler deleteAnnot getAnnot
    rw [find?_filter_ne st.annotations id]
    rfl

/-- Witness for C7 at the sample store. -/
theorem c7_delete_idempotent_witness :
    ∃ st2 : Store,
      deleteAnnot "A1" stW = some (aW, st2)
      ∧ deleteAnnotHandler "A1" stW = ((200, .deletedRes "A1"), st2)
      ∧ getAnnot st2 "A1" = none
      ∧ deleteAnnotHandler "A1" st2 = ((404, .errorMsg "Annotation not found"), st2) :=
  c7_delete_idempotent stW "A1" aW rfl

/-- C9: an unknown tool name is answered with an error result carrying a
readable message rather than a transport failure, and tools referencing a
missing annotation or session return error results with the kind-specific
not-found message. -/
theorem c9_not_found_and_unknown :
    (∀ name : String, ∀ args : ToolArgs, ∀ st : Store,
        name ∉ TOOLS.map ToolDef.name →
        handleTool name args st = (errorResult ("Unknown tool: " ++ name), st))
    ∧ (∀ id : String, ∀ st : Store, getAnnot st id = none →
        handleTool "agentation_acknowledge" { annotationId := some id } st
          = (errorResult ("Annotation not found: " ++ id), st))
    ∧ (∀ sid : String, ∀ st : Store, getSession st sid = none →
        handleTool "agentation_get_session" { sessionId := some sid } st
          = (errorResult ("Session not found: " ++ sid), st)) := by
  refine ⟨?_, ?_, ?_⟩
  · intro name args st hname
    simp only [TOOLS, List.map_cons, List.map_nil, List.mem_cons,
      List.not_mem_nil, or_false, not_or] at hname
    obtain ⟨h1, h2, h3, h4, h5, h6, h7, h8⟩ := hname
    simp [handleTool, beq_eq_false_iff_ne.mpr h1, beq_eq_false_iff_ne.mpr h2,
      beq_eq_false_iff_ne.mpr h3, beq_eq_false_iff_ne.mpr h4,
      beq_eq_false_iff_ne.mpr h5, beq_eq_false_iff_ne.mpr h6,
      beq_eq_false_iff_ne.mpr h7, beq_eq_false_iff_ne.mpr h8]
  · intro id st h
    simp [handleTool, requireArg, httpPatchAnnot, updateAnnotHandler, h, toolCatch]
  · intro sid st h
    have hd : getSessionDetail st sid = none := by
      simp [getSessionDetail, h]
    simp [handleTool, requireArg, hd]

/-- Witness for C9: an unknown tool and a missing annotation on the empty
store. -/
theorem c9_not_found_and_unknown_witness :
    handleTool "nope" {} {} = (errorResult "Unknown tool: nope", ({} : Store))
    ∧ handleTool "agentation_acknowledge" { annotationId := some "ZZ" } {}
        = (errorResult "Annotation not found: ZZ", ({} : Store)) :=
  ⟨c9_not_found_and_unknown.1 "nope" {} {} (by decide),
    c9_not_found_and_unknown.2.1 "ZZ" {} rfl⟩

/-! ### Status transition lattice (C3) and the resolve tool (C8) -/

/-- Round trip of the status wire strings. -/
theorem parseStatus_text (t : Status) : parseStatus t.text = some t := by
  cases t <;> rfl

/-- Auxiliary: a find? by id after replacing the first id match, when the
replacement keeps the id. -/
theorem find?_updateById (l : List Annot) (id : String) (a : Annot)
    (f : Annot → Annot) (h : l.find? (fun x => x.id == id) = some a)
    (hf : (f a).id = a.id) :
    (updateById id f l).find? (fun x => x.id == id) = some (f a) := by
  induction l with
  | nil => simp at h
  | cons b rest ih =>
    cases hb : (b.id == id) with
    | false =>
      have h' : rest.find? (fun x => x.id == id) = some a := by
        simpa [List.find?_cons, hb] using h
      simpa [updateById, hb, List.find?_cons] using ih h'
    | true =>
      have hba : b = a := by
        have hx := h
        simp [List.find?_cons, hb] at hx
        exact hx
      subst hba
      have hfb : ((f b).id == id) = true := by
        rw [hf]
        exact hb
      simp [updateById, hb, List.find?_cons, hfb]

/-- C3: a PATCH that requests an actual status change succeeds exactly when
the change lies on a legal edge of the lattice, and fails with a 400
validation error otherwise; in particular the resolve tool hitting a
pending annotation surfaces the rejected pending-to-resolved patch as an
error result and leaves the store unchanged.  (Transition checking lives in
the store, which is modelled from the spec.) -/
theorem c3_status_lattice (st : Store) (id : String) (a : Annot) (t : Status)
    (h : getAnnot st id = some a) (hne : a.status ≠ t) :
    (legalEdge a.status t = true →
      updateAnnotHandler id (.obj { status := some t.text }) st
        = ((200, .annotRes { a with status := t }),
            { st with annotations :=
                updateById id (fun _ => { a with status := t }) st.annotations }))
    ∧ (legalEdge a.status t = false →
      updateAnnotHandler id (.obj { status := some t.text }) st
        = ((400, .errorMsg ("Invalid status transition: "
            ++ a.status.text ++ " to " ++ t.text)), st))
    ∧ (a.status = .pending → ∀ smry : Option String,
      handleTool "agentation_resolve" { annotationId := some id, summary := smry } st
        = (errorResult (httpErrText 400 (.errorMsg ("Invalid status transition: "
            ++ (Status.pending).text ++ " to " ++ (Status.resolved).text))), st)) := by
  refine ⟨?_, ?_, ?_⟩
  · intro hedge
    have hleg : legalStatusChange a.status t = true := by
      unfold legalStatusChange
      rw [hedge]
      simp
    simp [updateAnnotHandler, updateAnnot, applyPatch, statusStep, resolverStep,
      commentStep, h, parseStatus_text, hleg]
  · intro hedge
    have hleg : legalStatusChange a.status t = false := by
      unfold legalStatusChange
      rw [hedge, beq_eq_false_iff_ne.mpr hne]
      rfl
    simp [updateAnnotHandler, updateAnnot, applyPatch, statusStep, h,
      parseStatus_text, hleg]
  · intro hp smry
    simp [handleTool, requireArg, httpPatchAnnot, updateAnnotHandler, updateAnnot,
      applyPatch, statusStep, parseStatus, h, hp, toolCatch,
      show legalStatusChange Status.pending Status.resolved = false from rfl]

/-- Witness for C3 at the sample store: a pending annotation patched
straight to resolved is rejected with 400. -/
theorem c3_status_lattice_witness :
    updateAnnotHandler "A1" (.obj { status := some "resolved" }) stW
      = ((400, .errorMsg ("Invalid status transition: "
          ++ (Status.pending).text ++ " to " ++ (Status.resolved).text)), stW) :=
  (c3_status_lattice stW "A1" aW .resolved rfl (by decide)).2.1 rfl

/-- C8: the resolve tool patches the annotation to resolved with resolver
agent and then, exactly when a non-empty summary is supplied, appends an
agent thread message with the resolved prefix; without a summary the patch
still happens and the thread is untouched.  The pre-state must admit the
transition to resolved, since the patch is checked against the lattice. -/
theorem c8_resolve_tool (st : Store) (id : String) (a : Annot) (s : String)
    (h : getAnnot st id = some a)
    (hleg : legalStatusChange a.status .resolved = true) (hs : s ≠ "") :
    (∃ st2, handleTool "agentation_resolve"
        { annotationId := some id, summary := some s } st
        = (success (.resolvePayload id (some s)), st2)
      ∧ getAnnot st2 id = some { a with
          status := .resolved,
          resolvedBy := some .agent,
          thread := a.thread ++ [⟨"agent", "Resolved: " ++ s⟩] })
    ∧ (∃ st2, handleTool "agentation_resolve" { annotationId := some id } st
        = (success (.resolvePayload id none), st2)
      ∧ getAnnot st2 id = some { a with
          status := .resolved,
          resolvedBy := some .agent }) := by
  have hcnt : (("Resolved: " ++ s) == "") = false := by
    rw [beq_eq_false_iff_ne]
    intro hc
    have hlen := congrArg String.length hc
    rw [String.length_append] at hlen
    have h10 : ("Resolved: ").length = 10 := by decide
    have h0 : ("" : String).length = 0 := by decide
    omega
  have hpatch : httpPatchAnnot id { status := some "resolved", resolvedBy := some "agent" } st = Except.ok { st with annotations := updateById id (fun _ => { a with status := Status.resolved, resolvedBy := some Resolver.agent }) st.annotations } := by
    simp [httpPatchAnnot, updateAnnotHandler, updateAnnot, applyPatch, statusStep,
      resolverStep, commentStep, parseStatus, parseResolver, h, hleg]
  have h2 : getAnnot { st with annotations := updateById id (fun _ => { a with status := Status.resolved, resolvedBy := some Resolver.agent }) st.annotations } id = some { a with status := Status.resolved, resolvedBy := some Resolver.agent } :=
    find?_updateById st.annotations id a _ h rfl
  constructor
  · have hthread : httpPostThread id "agent" ("Resolved: " ++ s) { st with annotations := updateById id (fun _ => { a with status := Status.resolved, resolvedBy := some Resolver.agent }) st.annotations } = Except.ok { st with annotations := updateById id (fun _ => { a with status := Status.resolved, resolvedBy := some Resolver.agent, thread := a.thread ++ [⟨"agent", "Resolved: " ++ s⟩] }) (updateById id (fun _ => { a with status := Status.resolved, resolvedBy := some Resolver.agent }) st.annotations) } := by
      simp [httpPostThread, addThreadHandler, truthy, hcnt, addThreadMessage, h2]
    refine ⟨{ st with annotations := updateById id (fun _ => { a with status := Status.resolved, resolvedBy := some Resolver.agent, thread := a.thread ++ [⟨"agent", "Resolved: " ++ s⟩] }) (updateById id (fun _ => { a with status := Status.resolved, resolvedBy := some Resolver.agent }) st.annotations) }, ?_, ?_⟩
    · simp [handleTool, requireArg, hpatch, beq_eq_false_iff_ne.mpr hs, hthread]
    · exact find?_updateById _ id _ (fun _ => { a with status := Status.resolved, resolvedBy := some Resolver.agent, thread := a.thread ++ [⟨"agent", "Resolved: " ++ s⟩] }) h2 rfl
  · refine ⟨{ st with annotations := updateById id (fun _ => { a with status := Status.resolved, resolvedBy := some Resolver.agent }) st.annotations }, ?_, ?_⟩
    · simp [handleTool, requireArg, hpatch]
    · exact h2

/-- Witness for C8: resolving an acknowledged annotation on a concrete
store appends the summary message. -/
theorem c8_resolve_tool_witness :
    ∃ st2, handleTool "agentation_resolve"
        { annotationId := some "A1", summary := some "fixed padding" }
        { sessions := [sW], annotations := [{ aW with status := .acknowledged }] }
        = (success (.resolvePayload "A1" (some "fixed padding")), st2)
      ∧ getAnnot st2 "A1" = some { aW with
          status := .resolved,
          resolvedBy := some .agent,
          thread := [⟨"agent", "Resolved: fixed padding"⟩] } :=
  (c8_resolve_tool
    { sessions := [sW], annotations := [{ aW with status := .acknowledged }] }
    "A1" { aW with status := .acknowledged } "fixed padding" rfl rfl
    (by decide)).1

/-! ### Event sequence counter (C5) -/

/-- Auxiliary: folding publishes appends events whose sequences continue
the counter consecutively, and advances the counter by the number of
mutations. -/
theorem runPublishes_log (ds : List (String × String)) (st : Store) :
    (runPublishes ds st).eventLog.map SAFEvent.sequence
      = st.eventLog.map SAFEvent.sequence ++ List.range' (st.seqCounter + 1) ds.length
    ∧ (runPublishes ds st).seqCounter = st.seqCounter + ds.length := by
  induction ds generalizing st with
  | nil => simp [runPublishes]
  | cons d ds ih =>
    have h := ih (publish d.1 d.2 st).2
    have hlog : (publish d.1 d.2 st).2.eventLog
        = st.eventLog ++ [⟨d.1, d.2, st.seqCounter + 1⟩] := rfl
    have hsc : (publish d.1 d.2 st).2.seqCounter = st.seqCounter + 1 := rfl
    unfold runPublishes at h ⊢
    rw [List.foldl_cons]
    refine ⟨?_, ?_⟩
    · rw [h.1, hlog, hsc, List.map_append, List.append_assoc]
      congr 1
    · rw [h.2, hsc]
      simp only [List.length_cons]
      omega

/-- C5: the event sequence numbers of a process lifetime come from the
single counter starting at 1 — across any sequence of mutations they are
exactly 1..k in order, hence strictly increasing, gap-free, and never
reused.  (The event bus is modelled from the spec.) -/
theorem c5_sequence_counter (ds : List (String × String)) :
    (runPublishes ds {}).eventLog.map SAFEvent.sequence = List.range' 1 ds.length
    ∧ ((runPublishes ds {}).eventLog.map SAFEvent.sequence).Pairwise (· < ·)
    ∧ (∀ n : Nat, n ∈ (runPublishes ds {}).eventLog.map SAFEvent.sequence
        ↔ 1 ≤ n ∧ n < 1 + ds.length)
    ∧ ((runPublishes ds {}).eventLog.map SAFEvent.sequence).Nodup := by
  have h := (runPublishes_log ds {}).1
  have h0 : (({} : Store).eventLog.map SAFEvent.sequence) = [] := rfl
  rw [h0, List.nil_append] at h
  have hc : ({} : Store).seqCounter = 0 := rfl
  rw [hc] at h
  refine ⟨h, ?_, ?_, ?_⟩
  · rw [h]
    exact List.pairwise_lt_range' 1 ds.length 1 (by norm_num)
  · intro n
    rw [h]
    exact List.mem_range'_1
  · rw [h]
    exact List.nodup_range' 1 ds.length 1 (by norm_num)

/-! ### SSE replay and ordering (C4) -/

/-- C4: a reconnection with a numeric Last-Event-ID of value n replays
exactly the logged events of the session with sequence strictly greater
than n, in log order; and when the log is in strictly increasing sequence
order and the live events continue beyond it (as the monotone counter
guarantees), the delivered stream is exactly the matching events with
sequence above n, in strictly increasing order — no gap and no reorder at
the replay/live boundary. -/
theorem c4_sse_replay (st : Store) (sid : String) (hdr : String) (n : Int)
    (live : List SAFEvent)
    (hparse : jsParseInt10 hdr = some n)
    (hsorted : st.eventLog.Pairwise (fun e f => e.sequence < f.sequence))
    (hlive : ∀ e ∈ st.eventLog, ∀ f ∈ live, e.sequence < f.sequence)
    (hlivesorted : live.Pairwise (fun e f => e.sequence < f.sequence))
    (hlivegt : ∀ f ∈ live, n < (f.sequence : Int)) :
    sseReplay st.eventLog sid (some hdr)
      = st.eventLog.filter (fun e => e.sessionId == sid && n < (e.sequence : Int))
    ∧ sseDelivered st sid (some hdr) live
      = (st.eventLog ++ live).filter (fun e => e.sessionId == sid && n < (e.sequence : Int))
    ∧ (sseDelivered st sid (some hdr) live).Pairwise (fun e f => e.sequence < f.sequence) := by
  have hr : sseReplay st.eventLog sid (some hdr)
      = st.eventLog.filter (fun e => e.sessionId == sid && n < (e.sequence : Int)) := by
    simp only [sseReplay]
    rw [hparse]
    rfl
  have hlf : live.filter (fun e => e.sessionId == sid)
      = live.filter (fun e => e.sessionId == sid && n < (e.sequence : Int)) := by
    refine List.filter_congr ?_
    intro f hf
    have := hlivegt f hf
    simp [this]
  refine ⟨hr, ?_, ?_⟩
  · unfold sseDelivered
    rw [hr, hlf, List.filter_append]
  · unfold sseDelivered
    rw [hr]
    rw [List.pairwise_append]
    refine ⟨hsorted.filter _, hlivesorted.filter _, ?_⟩
    intro e he f hf
    exact hlive e (List.mem_of_mem_filter he) f (List.mem_of_mem_filter hf)

/-- Witness for C4 on a two-event log with one live event. -/
theorem c4_sse_replay_witness :
    sseReplay [⟨"annotation.created", "S1", 1⟩, ⟨"annotation.created", "S1", 2⟩] "S1"
        (some "1")
      = [⟨"annotation.created", "S1", 2⟩]
    ∧ sseDelivered
        { eventLog := [⟨"annotation.created", "S1", 1⟩, ⟨"annotation.created", "S1", 2⟩] }
        "S1" (some "1") [⟨"annotation.updated", "S1", 3⟩]
      = [⟨"annotation.created", "S1", 2⟩, ⟨"annotation.updated", "S1", 3⟩] := by
  have h := c4_sse_replay
    { eventLog := [⟨"annotation.created", "S1", 1⟩, ⟨"annotation.created", "S1", 2⟩] }
    "S1" "1" 1 [⟨"annotation.updated", "S1", 3⟩] (by decide)
    (by decide) (by decide) (by decide) (by decide)
  refine ⟨?_, ?_⟩
  · rw [h.1]
    decide
  · rw [h.2.1]
    decide

/-! ### Domain-filtered stream (C6) -/

/-- C6: the global event stream without a domain query parameter is
rejected with 400 and an error body; with a domain, the connection delivers
exactly the events whose owning session exists and whose session URL parses
to a host equal to the domain — events with a missing session or an
unparseable session URL produce no frame. -/
theorem c6_domain_stream (st : Store) (d : String) (live : List SAFEvent)
    (hd : d ≠ "") :
    globalSseHandler none st = ((400, .errorMsg "domain query parameter required"), st)
    ∧ globalDelivered st none live
        = Except.error (400, "domain query parameter required")
    ∧ globalDelivered st (some d) live = Except.ok (domainFrames st d live)
    ∧ (∀ e, e ∈ domainFrames st d live
        ↔ e ∈ live ∧ ∃ s, getSession st e.sessionId = some s ∧ urlHost s.url = some d) := by
  refine ⟨rfl, rfl, ?_, ?_⟩
  · simp [globalDelivered, hd]
  · intro e
    unfold domainFrames
    rw [List.mem_filter]
    constructor
    · rintro ⟨he, hp⟩
      refine ⟨he, ?_⟩
      unfold domainMatch at hp
      rcases hgs : getSession st e.sessionId with _ | s
      · simp [hgs] at hp
      · simp only [hgs] at hp
        rcases hh : urlHost s.url with _ | h2
        · simp [hh] at hp
        · simp only [hh, beq_iff_eq] at hp
          exact ⟨s, rfl, by rw [hh, hp]⟩
    · rintro ⟨he, s, hgs, hh⟩
      refine ⟨he, ?_⟩
      simp [domainMatch, hgs, hh]

/-- Witness for C6: two sessions on different hosts, an event for each;
only the matching host produces a frame and the missing-domain request is
rejected. -/
theorem c6_domain_stream_witness :
    globalDelivered
        { sessions := [⟨"S1", "http://localhost:3000/x", "active", "", none⟩,
            ⟨"S2", "http://localhost:3001/y", "active", "", none⟩] }
        (some "localhost:3001")
        [⟨"annotation.created", "S1", 1⟩, ⟨"annotation.created", "S2", 2⟩]
      = Except.ok (domainFrames
          { sessions := [⟨"S1", "http://localhost:3000/x", "active", "", none⟩,
              ⟨"S2", "http://localhost:3001/y", "active", "", none⟩] }
          "localhost:3001"
          [⟨"annotation.created", "S1", 1⟩, ⟨"annotation.created", "S2", 2⟩])
    ∧ domainFrames
        { sessions := [⟨"S1", "http://localhost:3000/x", "active", "", none⟩,
            ⟨"S2", "http://localhost:3001/y", "active", "", none⟩] }
        "localhost:3001"
        [⟨"annotation.created", "S1", 1⟩, ⟨"annotation.created", "S2", 2⟩]
      = [⟨"annotation.created", "S2", 2⟩] := by
  constructor
  · exact (c6_domain_stream _ "localhost:3001" _ (by decide)).2.2.1
  · decide

end Agentation
